import Mathlib

/-!
# Verification of the ercWhat core logic

Shallow embedding of the three logic components of the `Ayoseun/erc-what`
repository:

* the deprecated-ERC scanner (`src/components/DeprecatedERCScanner.tsx`):
  static tables `ercHealthDB`, `SAFE_ERCS`, `ERC_PATTERNS` and the function
  `scanSolidity`;
* the compatibility matrix (`CompatibilityMatrix` component): the `rules`
  table and `getRule`, plus the self-pair short-circuit of the grid renderer;
* the AI recommendation proxy (the Deno `serve` handler): input validation,
  credential check and the upstream status branches.

JavaScript strings are modelled as `String`/`List Char`; the regular
expressions used by the scanner (alternations of literals with an optional
hyphen, `i` flag) are modelled by a small matcher with JS semantics
(alternatives tried left to right, optional characters greedy with
backtracking, case-insensitive via ASCII `Char.toLower`, global scan
advancing past each match).  `Array.prototype.sort` (required to be stable
by ES2019) is modelled by `List.mergeSort`.  Long prose fields of the
health table (`reason`, `eipUrl`, `sourceNote`, replacement `reason`) are
elided from the records: no claim mentions their contents.
-/

namespace ErcWhat

/-! ## Scanner: static tables (DeprecatedERCScanner.tsx) -/

/-- `ERCHealth` union type of the source. -/
inductive ERCHealth where
  | deprecated
  | notRecommended
  | stagnant
  | superseded
  | draftRisk
  | safe
  deriving DecidableEq, Repr

/-- `riskLevel` union type of the source. -/
inductive RiskLevel where
  | critical
  | high
  | medium
  | low
  deriving DecidableEq, Repr

/-- The `replacement` sub-record of `ERCHealthRecord` (prose `reason` elided). -/
structure Replacement where
  ercNumber : String
  label : String
  deriving DecidableEq, Repr

/-- `ERCHealthRecord` of the source (prose fields elided, see module header). -/
structure ERCHealthRecord where
  number : String
  health : ERCHealth
  officialStatus : String
  riskLevel : RiskLevel
  replacement : Option Replacement
  deriving DecidableEq, Repr

/-- The health record of ERC-777 in `ercHealthDB`. -/
def rec777 : ERCHealthRecord :=
  { number := "777", health := .notRecommended, officialStatus := "Final",
    riskLevel := .critical,
    replacement := some { ercNumber := "20", label := "ERC-20 + ERC-1363" } }

/-- The JS `Record` literal `ercHealthDB`, as an association list in source order. -/
def ercHealthDB : List (String × ERCHealthRecord) :=
  [ ("777", rec777),
    ("1820", { number := "1820", health := .notRecommended, officialStatus := "Final",
               riskLevel := .high,
               replacement := some { ercNumber := "165", label := "ERC-165" } }),
    ("223", { number := "223", health := .stagnant, officialStatus := "Stagnant",
              riskLevel := .high,
              replacement := some { ercNumber := "1363", label := "ERC-1363" } }),
    ("827", { number := "827", health := .stagnant, officialStatus := "Stagnant",
              riskLevel := .critical,
              replacement := some { ercNumber := "1363", label := "ERC-1363" } }),
    ("884", { number := "884", health := .stagnant, officialStatus := "Stagnant",
              riskLevel := .medium,
              replacement := some { ercNumber := "3643", label := "ERC-3643 (T-REX)" } }),
    ("948", { number := "948", health := .stagnant, officialStatus := "Stagnant",
              riskLevel := .medium,
              replacement := some { ercNumber := "4337", label := "ERC-4337 Paymasters" } }),
    ("1400", { number := "1400", health := .stagnant, officialStatus := "Stagnant",
               riskLevel := .medium,
               replacement := some { ercNumber := "3643", label := "ERC-3643 (T-REX)" } }),
    ("2612", { number := "2612", health := .safe, officialStatus := "Final",
               riskLevel := .low, replacement := none }) ]

/-- `ercHealthDB[n] ?? null` of the source. -/
def healthOf (n : String) : Option ERCHealthRecord := ercHealthDB.lookup n

/-- The `SAFE_ERCS` array of the source. -/
def SAFE_ERCS : List String :=
  ["20", "721", "1155", "2981", "4626", "4337", "6551", "4907", "5484", "5192",
   "1271", "165", "712", "1363", "3643", "2612", "7579", "6900", "4906", "7231"]

/-! ## Scanner: regular-expression model

Every pattern in `ERC_PATTERNS` is an alternation of sequences whose items
are literal characters or an optional character (the `-?` in the `erc-?NNN`
and `eip-?NNN` variants).  `RItem`/`matchItems`/`matchAlts`/`scanCount`
implement exactly the JS semantics of such a regex with the `g` and `i`
flags: alternatives are tried left to right at each position, an optional
character is consumed greedily with backtracking, comparison is
case-insensitive, and the global scan counts non-overlapping matches,
restarting after the end of each match (advancing one position after a
zero-width match, as `lastIndex` does). -/

/-- One item of a regex alternative: a literal or an optional character. -/
inductive RItem where
  | lit (c : Char)
  | opt (c : Char)
  deriving DecidableEq, Repr

/-- A regex as used by the scanner: an alternation of sequences of items. -/
abbrev Regex := List (List RItem)

/-- The sequence of literal items of a string, e.g. the `ERC777` alternative. -/
def lits (s : String) : List RItem := s.data.map RItem.lit

/-- Match a sequence of items at the start of the input, returning the number
of characters consumed.  Case-insensitive; an optional item is greedy but
backtracks when the remainder fails, exactly as JS `-?` does. -/
def matchItems : List RItem → List Char → Option Nat
  | [], _ => some 0
  | .lit _ :: _, [] => none
  | .lit c :: items, d :: ds =>
      if c.toLower = d.toLower then (matchItems items ds).map (· + 1) else none
  | .opt _ :: items, [] => matchItems items []
  | .opt c :: items, d :: ds =>
      if c.toLower = d.toLower then
        match matchItems items ds with
        | some n => some (n + 1)
        | none => matchItems items (d :: ds)
      else matchItems items (d :: ds)

/-- Match an alternation at the start of the input: first alternative that
matches wins (JS alternation semantics). -/
def matchAlts : Regex → List Char → Option Nat
  | [], _ => none
  | alt :: alts, s =>
      match matchItems alt s with
      | some n => some n
      | none => matchAlts alts s

/-- The canonical text of one alternative: every literal and optional
character, in order (e.g. the canonical text of `erc-?777` is `erc-777`).
Any case variant of this text is matched by the alternative. -/
def canonChars (items : List RItem) : List Char :=
  items.map fun i =>
    match i with
    | .lit c => c
    | .opt c => c

/-- Worker for `scanCount`, structurally recursive on a fuel bound so that it
reduces inside the kernel; the fuel argument is irrelevant as long as it
exceeds the length of the input (`scanCountF_eq_scanCount`). -/
def scanCountF (r : Regex) : Nat → List Char → Nat
  | 0, _ => 0
  | _ + 1, [] => if (matchAlts r []).isSome then 1 else 0
  | fuel + 1, c :: cs =>
      match matchAlts r (c :: cs) with
      | some n => 1 + scanCountF r fuel (cs.drop (n - 1))
      | none => scanCountF r fuel cs

/-- Number of matches found by `line.match(new RegExp(pattern.source, "gi"))`:
scan left to right, count each match and continue after its end (one position
further for a zero-width match, as `lastIndex` does).  The scan consumes at
least one character per step, so `length + 1` fuel always suffices. -/
def scanCount (r : Regex) (l : List Char) : Nat := scanCountF r (l.length + 1) l

/-! ## Scanner: pattern table and scan logic -/

/-- One entry of the `ERC_PATTERNS` array. -/
structure ERCPattern where
  pattern : Regex
  ercNumber : String
  label : String
  deriving DecidableEq, Repr

/-- The pattern entry for ERC-777: `/ERC777|IERC777|erc-?777|eip-?777/gi`. -/
def pattern777 : ERCPattern :=
  { pattern := [lits "ERC777", lits "IERC777",
                lits "erc" ++ [RItem.opt '-'] ++ lits "777",
                lits "eip" ++ [RItem.opt '-'] ++ lits "777"],
    ercNumber := "777", label := "ERC-777" }

/-- The `ERC_PATTERNS` array of the source, in source order. -/
def ERC_PATTERNS : List ERCPattern :=
  [ pattern777,
    { pattern := [lits "ERC1820", lits "IERC1820",
                  lits "erc" ++ [RItem.opt '-'] ++ lits "1820",
                  lits "eip" ++ [RItem.opt '-'] ++ lits "1820"],
      ercNumber := "1820", label := "ERC-1820" },
    { pattern := [lits "ERC827", lits "IERC827",
                  lits "erc" ++ [RItem.opt '-'] ++ lits "827",
                  lits "eip" ++ [RItem.opt '-'] ++ lits "827"],
      ercNumber := "827", label := "ERC-827" },
    { pattern := [lits "ERC223", lits "IERC223",
                  lits "erc" ++ [RItem.opt '-'] ++ lits "223",
                  lits "eip" ++ [RItem.opt '-'] ++ lits "223"],
      ercNumber := "223", label := "ERC-223" },
    { pattern := [lits "ERC884", lits "IERC884",
                  lits "erc" ++ [RItem.opt '-'] ++ lits "884",
                  lits "eip" ++ [RItem.opt '-'] ++ lits "884"],
      ercNumber := "884", label := "ERC-884" },
    { pattern := [lits "ERC948", lits "IERC948",
                  lits "erc" ++ [RItem.opt '-'] ++ lits "948",
                  lits "eip" ++ [RItem.opt '-'] ++ lits "948"],
      ercNumber := "948", label := "ERC-948" },
    { pattern := [lits "ERC1400", lits "IERC1400",
                  lits "erc" ++ [RItem.opt '-'] ++ lits "1400",
                  lits "eip" ++ [RItem.opt '-'] ++ lits "1400"],
      ercNumber := "1400", label := "ERC-1400" },
    { pattern := [lits "ERC20", lits "IERC20"], ercNumber := "20", label := "ERC-20" },
    { pattern := [lits "ERC721", lits "IERC721"], ercNumber := "721", label := "ERC-721" },
    { pattern := [lits "ERC1155", lits "IERC1155"], ercNumber := "1155", label := "ERC-1155" },
    { pattern := [lits "ERC4626", lits "IERC4626"], ercNumber := "4626", label := "ERC-4626" },
    { pattern := [lits "ERC1363", lits "IERC1363"], ercNumber := "1363", label := "ERC-1363" },
    { pattern := [lits "ERC2612", lits "IERC2612"], ercNumber := "2612", label := "ERC-2612" },
    { pattern := [lits "ERC165", lits "IERC165"], ercNumber := "165", label := "ERC-165" },
    { pattern := [lits "ERC2981", lits "IERC2981"], ercNumber := "2981", label := "ERC-2981" },
    { pattern := [lits "ERC4907", lits "IERC4907"], ercNumber := "4907", label := "ERC-4907" } ]

/-- The `ScanHit` record of the source. -/
structure ScanHit where
  ercNumber : String
  label : String
  count : Nat
  lines : List Nat
  health : Option ERCHealthRecord
  isSafe : Bool
  deriving DecidableEq, Repr

/-- `code.split("\n")` on char lists (JS `split` never returns an empty array). -/
def splitNl : List Char → List (List Char)
  | [] => [[]]
  | c :: cs =>
      if c = '\n' then [] :: splitNl cs
      else
        match splitNl cs with
        | l :: ls => (c :: l) :: ls
        | [] => [[c]]

/-- Per-line match counts of one pattern (the `lines.forEach` loop). -/
def lineCounts (r : Regex) (ls : List (List Char)) : List Nat := ls.map (scanCount r)

/-- `totalCount` accumulated by the `forEach` loop: sum of per-line counts. -/
def totalCount (r : Regex) (ls : List (List Char)) : Nat := (lineCounts r ls).sum

/-- `matchLines` accumulated by the `forEach` loop: 1-based indices of the
lines with at least one match, in scan order. -/
def matchLines (r : Regex) (ls : List (List Char)) : List Nat :=
  (lineCounts r ls).enum.filterMap fun x => if 0 < x.2 then some (x.1 + 1) else none

/-- The hit stored in the `hits` map for one pattern. -/
def mkHit (p : ERCPattern) (ls : List (List Char)) : ScanHit :=
  { ercNumber := p.ercNumber, label := p.label,
    count := totalCount p.pattern ls,
    lines := (matchLines p.pattern ls).take 5,
    health := healthOf p.ercNumber,
    isSafe := SAFE_ERCS.contains p.ercNumber && (healthOf p.ercNumber).isNone }

/-- One iteration of the pattern loop of `scanSolidity`: insert the hit when
the pattern matched and the map has no entry for this number yet (the JS
`Map` preserves insertion order, hence the list). -/
def scanStep (ls : List (List Char)) (hits : List ScanHit) (p : ERCPattern) : List ScanHit :=
  if 0 < totalCount p.pattern ls ∧ ¬ ∃ h ∈ hits, h.ercNumber = p.ercNumber then
    hits ++ [mkHit p ls]
  else hits

/-- `[...hits.values()]` before sorting: the deduplicated hits in pattern
encounter order. -/
def collectHits (code : String) : List ScanHit :=
  ERC_PATTERNS.foldl (scanStep (splitNl code.data)) []

/-- `order = { critical: 0, high: 1, medium: 2, low: 3 }` of the comparator. -/
def riskOrder : RiskLevel → Int
  | .critical => 0
  | .high => 1
  | .medium => 2
  | .low => 3

/-- The comparator passed to `sort`: classified hits ordered by severity,
classified before unclassified, unclassified tied. -/
def hitCmp (a b : ScanHit) : Int :=
  match a.health, b.health with
  | some ha, some hb => riskOrder ha.riskLevel - riskOrder hb.riskLevel
  | some _, none => -1
  | none, some _ => 1
  | none, none => 0

/-- `scanSolidity`: collect the hits and sort them with the comparator
(`Array.prototype.sort` is stable, modelled by stable `mergeSort`). -/
def scanSolidity (code : String) : List ScanHit :=
  (collectHits code).mergeSort fun a b => decide (hitCmp a b ≤ 0)


/-! ## Compatibility matrix (CompatibilityMatrix component) -/

/-- The `CompatResult` union type of the source. -/
inductive CompatResult where
  | required
  | compatible
  | caution
  | incompatible
  | na
  deriving DecidableEq, Repr

/-- The `Rule` type of the source: classification plus rationale. -/
structure Rule where
  result : CompatResult
  note : String
  deriving DecidableEq, Repr

/-- The `rules` record of the source, as an association list keyed by the
`"a:b"` strings of the source, in source order. -/
def rules : List (String × Rule) :=
  [ ("20:2612",   { result := .required, note := "ERC-2612 is a direct extension of ERC-20 (adds permit for gasless approvals). Always use together." }),
    ("721:2981",  { result := .required, note := "ERC-2981 is the standard royalty extension for ERC-721 NFTs." }),
    ("1155:2981", { result := .required, note := "ERC-2981 is the standard royalty extension for ERC-1155 multi-tokens." }),
    ("4337:1271", { result := .required, note := "Account Abstraction smart wallets must implement ERC-1271 for off-chain signature validation." }),
    ("721:165",   { result := .required, note := "ERC-721 mandates ERC-165 for interface detection — they are inseparable." }),
    ("1155:165",  { result := .required, note := "ERC-1155 mandates ERC-165 for interface detection." }),
    ("20:4626",   { result := .required, note := "ERC-4626 tokenized vaults wrap an ERC-20 asset and issue ERC-20 shares." }),
    ("721:6551",  { result := .required, note := "ERC-6551 Token Bound Accounts are always anchored to an ERC-721 token." }),
    ("721:4907",  { result := .compatible, note := "ERC-4907 adds a user/rental role on top of ERC-721. Very common pairing." }),
    ("721:5484",  { result := .compatible, note := "ERC-5484 restricts transfer on ERC-721 to create soulbound tokens." }),
    ("721:5192",  { result := .compatible, note := "ERC-5192 adds a minimal locked flag to ERC-721 for simpler soulbound use." }),
    ("721:5007",  { result := .compatible, note := "ERC-5007 adds time-based validity windows to ERC-721 tokens." }),
    ("4337:6900", { result := .compatible, note := "ERC-6900 is the modular plugin specification built on top of ERC-4337." }),
    ("4337:7579", { result := .compatible, note := "ERC-7579 is a leaner alternative module spec for ERC-4337 accounts." }),
    ("20:1363",   { result := .compatible, note := "ERC-1363 extends ERC-20 with transferAndCall hooks for payable token flows." }),
    ("20:777",    { result := .compatible, note := "ERC-777 is a superset of ERC-20 with hooks. Mostly superseded by ERC-1363." }),
    ("721:3525",  { result := .compatible, note := "ERC-3525 semi-fungible tokens extend ERC-721 identity with a value field." }),
    ("5484:4907", { result := .caution, note := "Soulbound (non-transferable) conflicts with rental mechanics — rental requires transfer or user delegation." }),
    ("5192:4907", { result := .caution, note := "Locked tokens (5192) cannot be transferred, which may block rental assignment." }),
    ("777:4626",  { result := .caution, note := "ERC-777 hooks can trigger reentrancy in vault contexts. Prefer plain ERC-20." }),
    ("6900:7579", { result := .caution, note := "ERC-6900 and ERC-7579 are competing module standards — implement only one." }),
    ("5484:5192", { result := .incompatible, note := "Both implement soulbound locking mechanisms — redundant and likely conflicting." }),
    ("20:721",    { result := .incompatible, note := "Fundamentally different token models. Use ERC-1155 if you need both fungible and non-fungible in one contract." }) ]

/-- The fallback rule returned by `getRule` for an unregistered pair. -/
def defaultRule : Rule :=
  { result := .na, note := "No specific compatibility data available for this pair." }

/-- `getRule` of the source: try the pair as given, then reversed, else the
default no-data rule. -/
def getRule (a b : String) : Rule :=
  match rules.lookup (a ++ ":" ++ b) with
  | some r => r
  | none =>
      match rules.lookup (b ++ ":" ++ a) with
      | some r => r
      | none => defaultRule

/-- The `MATRIX_ERCS` array of the source: the identifiers the matrix offers. -/
def MATRIX_ERCS : List String :=
  ["20", "721", "1155", "4626", "4337", "2981", "6551", "4907", "5484", "1271",
   "165", "777", "1363", "6900", "7579", "5192", "5007", "3525"]

/-- Every standard identifier appearing anywhere in the embedded tables:
matrix columns, known-safe set, health table keys and pattern table numbers
(the rule keys only mention identifiers already listed here). -/
def standardIds : List String :=
  (MATRIX_ERCS ++ SAFE_ERCS ++ ercHealthDB.map (fun x => x.1)
    ++ ERC_PATTERNS.map (fun p => p.ercNumber)).dedup

/-- A cell of the compatibility grid. -/
inductive MatrixCell where
  | same
  | entry (r : Rule)
  deriving DecidableEq, Repr

/-- The cell rendered by `CompatibilityMatrix` for a row/column pair: the
self-pair branch renders a static same-standard cell without consulting
`getRule`; every other pair shows `getRule rowNum colNum`. -/
def matrixCell (rowNum colNum : String) : MatrixCell :=
  if rowNum = colNum then .same else .entry (getRule rowNum colNum)


/-! ## Recommendation proxy (the Deno serve handler)

The handler is asynchronous IO code; it is embedded as a pure function of
the parts of the environment it consumes: the `description` field of the
parsed request body, the optional `LOVABLE_API_KEY` environment value and
the upstream gateway's response.  The single `fetch` call is abstracted by
the `Upstream` argument, and the result records whether the control flow
reached the `fetch` (`networkCalled`).  The `catch` block converts every
thrown error into a 500 response carrying the error's message. -/

/-- A JSON value, as far as the `description` validation distinguishes them:
the check `!description || typeof description !== "string"` rejects
everything except a non-empty string. -/
inductive JVal where
  | jstr (s : String)
  | jnum (n : Int)
  | jbool (b : Bool)
  | jnull
  | jarr
  | jobj
  deriving DecidableEq, Repr

/-- `!description || typeof description !== "string"`: `none` models an
absent field (`undefined`). -/
def descriptionInvalid : Option JVal → Bool
  | some (.jstr s) => s = ""
  | _ => true

/-- The upstream gateway response: HTTP status, and the structured tool-call
arguments when the success body carries one (`none` models a missing or
unparsable `tool_calls[0]`). -/
structure Upstream where
  status : Nat
  toolCallArgs : Option String
  deriving DecidableEq, Repr

/-- `Response.ok`: status in the range 200-299. -/
def respOk (status : Nat) : Bool := decide (200 ≤ status ∧ status < 300)

/-- A response body as produced by the handler. -/
inductive RespBody where
  | err (msg : String)
  | payload (args : String)
  deriving DecidableEq, Repr

/-- The handler's observable outcome. -/
structure HandlerResult where
  status : Nat
  body : RespBody
  networkCalled : Bool
  deriving DecidableEq, Repr

/-- The `serve` handler of the recommendation proxy, for a request whose
body parsed to an object whose `description` field is `desc`. -/
def handle (desc : Option JVal) (apiKey : Option String) (up : Upstream) : HandlerResult :=
  if descriptionInvalid desc then
    { status := 400, body := .err "description is required", networkCalled := false }
  else
    match apiKey with
    | none =>
        { status := 500, body := .err "LOVABLE_API_KEY not configured", networkCalled := false }
    | some _ =>
        if respOk up.status then
          match up.toolCallArgs with
          | some args => { status := 200, body := .payload args, networkCalled := true }
          | none =>
              { status := 500, body := .err "No tool call in AI response", networkCalled := true }
        else if up.status = 429 then
          { status := 429, body := .err "Rate limit exceeded", networkCalled := true }
        else if up.status = 402 then
          { status := 402, body := .err "Payment required", networkCalled := true }
        else
          { status := 500, body := .err ("AI gateway error: " ++ toString up.status),
            networkCalled := true }


/-! ## Claims about the compatibility lookup -/

/-- Claim C2: for all pairs of standard identifiers (A,B), the compatibility
lookup returns the same classification and rationale for (A,B) as for (B,A);
in particular ("20","721") and ("721","20") both return the incompatible
classification with its rationale. -/
theorem getRule_symmetric :
    (∀ a ∈ standardIds, ∀ b ∈ standardIds, getRule a b = getRule b a)
    ∧ getRule "20" "721"
        = { result := .incompatible,
            note := "Fundamentally different token models. Use ERC-1155 if you need both fungible and non-fungible in one contract." }
    ∧ getRule "721" "20" = getRule "20" "721" :=
  ⟨by decide, by decide, by decide⟩

theorem getRule_symmetric_witness :
    ("1155" ∈ standardIds ∧ "2981" ∈ standardIds)
    ∧ getRule "1155" "2981" = getRule "2981" "1155" :=
  ⟨⟨by decide, by decide⟩, getRule_symmetric.1 "1155" (by decide) "2981" (by decide)⟩

/-- Claim C5, counterexample: the lookup operation does not reject a
self-pair query: `getRule` applied to ("20","20") returns the default
no-data rule (it is a total function with no error outcome), contradicting
the claimed rejection with an InvalidArgument error. -/
theorem getRule_self_pair_counterexample : getRule "20" "20" = defaultRule := by decide

/-- Claim C5 as amended: the UI never looks a self-pair up in the rule
table — the matrix renders the same-standard indicator for every diagonal
cell without consulting `getRule`; the lookup operation itself, applied to a
self-pair, does not raise an error but returns the default no-data rule. -/
theorem selfPair_short_circuit :
    (∀ a : String, matrixCell a a = .same)
    ∧ ∀ a ∈ standardIds, getRule a a = defaultRule :=
  ⟨fun a => by simp [matrixCell], by decide⟩

theorem selfPair_short_circuit_witness :
    matrixCell "777" "777" = .same ∧ getRule "777" "777" = defaultRule :=
  ⟨selfPair_short_circuit.1 "777", selfPair_short_circuit.2 "777" (by decide)⟩

/-- Claim C8: a pair registered in neither order resolves to the default
no-data rule (and `getRule` is total, so no failure is possible); in
particular ("2612","1155") resolves to the default rule. -/
theorem getRule_unknown_pair_default (a b : String)
    (h1 : (a ++ ":" ++ b) ∉ rules.map Prod.fst)
    (h2 : (b ++ ":" ++ a) ∉ rules.map Prod.fst) :
    getRule a b = defaultRule ∧ getRule "2612" "1155" = defaultRule := by
  refine ⟨?_, by decide⟩
  have e1 : rules.lookup (a ++ ":" ++ b) = none := by
    rw [List.lookup_eq_none_iff]
    intro p hp
    simp only [bne_iff_ne, ne_eq]
    intro hk
    exact h1 (hk ▸ List.mem_map_of_mem Prod.fst hp)
  have e2 : rules.lookup (b ++ ":" ++ a) = none := by
    rw [List.lookup_eq_none_iff]
    intro p hp
    simp only [bne_iff_ne, ne_eq]
    intro hk
    exact h2 (hk ▸ List.mem_map_of_mem Prod.fst hp)
  unfold getRule
  rw [e1, e2]

theorem getRule_unknown_pair_default_witness :
    getRule "5007" "3525" = defaultRule ∧ getRule "2612" "1155" = defaultRule :=
  getRule_unknown_pair_default "5007" "3525" (by decide) (by decide)

/-! ## Claims about the recommendation proxy -/

/-- Claim C4: a request whose description field is empty or not a string is
answered with status 400 and an error body, and the upstream fetch is never
reached. -/
theorem proxy_rejects_invalid_description (desc : Option JVal) (apiKey : Option String)
    (up : Upstream)
    (h : desc = some (.jstr "") ∨ ∀ s : String, desc ≠ some (.jstr s)) :
    (handle desc apiKey up).status = 400
    ∧ (∃ m, (handle desc apiKey up).body = .err m)
    ∧ (handle desc apiKey up).networkCalled = false := by
  have hinv : descriptionInvalid desc = true := by
    rcases h with h | h
    · subst h; rfl
    · cases desc with
      | none => rfl
      | some v =>
        cases v with
        | jstr s => exact absurd rfl (h s)
        | jnum n => rfl
        | jbool b => rfl
        | jnull => rfl
        | jarr => rfl
        | jobj => rfl
  have e : handle desc apiKey up
      = { status := 400, body := .err "description is required", networkCalled := false } := by
    unfold handle
    rw [hinv]
    simp
  rw [e]
  exact ⟨rfl, ⟨"description is required", rfl⟩, rfl⟩

theorem proxy_rejects_invalid_description_witness :
    (handle (some (.jstr "")) (some "key") ⟨200, some "args"⟩).status = 400
    ∧ (∃ m, (handle (some (.jstr "")) (some "key") ⟨200, some "args"⟩).body = .err m)
    ∧ (handle (some (.jstr "")) (some "key") ⟨200, some "args"⟩).networkCalled = false :=
  proxy_rejects_invalid_description (some (.jstr "")) (some "key") ⟨200, some "args"⟩
    (Or.inl rfl)

theorem ai_gateway_msg_ne_rate_limit (t : String) :
    ("AI gateway error: " ++ t) ≠ "Rate limit exceeded" := by
  intro h
  have hd := congrArg String.data h
  rw [String.data_append] at hd
  have h18 := congrArg (List.take 18) hd
  rw [List.take_left' (by decide)] at h18
  exact absurd h18 (by decide)

/-- Claim C6: an upstream 429 is propagated as a 429 response with the
rate-limit-specific message, which differs from the message produced by a
generic non-success upstream status (propagated as a 500). -/
theorem proxy_rate_limit_distinct (desc : Option JVal) (key : String) (up : Upstream)
    (hv : descriptionInvalid desc = false) (h429 : up.status = 429) :
    (handle desc (some key) up).status = 429
    ∧ (handle desc (some key) up).body = .err "Rate limit exceeded"
    ∧ ∀ up2 : Upstream, respOk up2.status = false → up2.status ≠ 429 → up2.status ≠ 402 →
        (handle desc (some key) up2).status = 500
        ∧ (handle desc (some key) up2).body = .err ("AI gateway error: " ++ toString up2.status)
        ∧ (handle desc (some key) up2).body ≠ .err "Rate limit exceeded" := by
  have hok : respOk up.status = false := by rw [h429]; decide
  have e1 : handle desc (some key) up
      = { status := 429, body := .err "Rate limit exceeded", networkCalled := true } := by
    unfold handle
    rw [hv, hok, h429]
    simp
  refine ⟨by rw [e1], by rw [e1], ?_⟩
  intro up2 hok2 hne429 hne402
  have e2 : handle desc (some key) up2
      = { status := 500, body := .err ("AI gateway error: " ++ toString up2.status),
          networkCalled := true } := by
    unfold handle
    rw [hv, hok2]
    simp [hne429, hne402]
  refine ⟨by rw [e2], by rw [e2], ?_⟩
  rw [e2]
  intro hbody
  have := RespBody.err.inj hbody
  exact ai_gateway_msg_ne_rate_limit (toString up2.status) this

theorem proxy_rate_limit_distinct_witness :
    (handle (some (.jstr "d")) (some "key") ⟨429, none⟩).status = 429
    ∧ (handle (some (.jstr "d")) (some "key") ⟨429, none⟩).body = .err "Rate limit exceeded"
    ∧ ((handle (some (.jstr "d")) (some "key") ⟨500, none⟩).status = 500
        ∧ (handle (some (.jstr "d")) (some "key") ⟨500, none⟩).body
            = .err ("AI gateway error: " ++ toString 500)
        ∧ (handle (some (.jstr "d")) (some "key") ⟨500, none⟩).body
            ≠ .err "Rate limit exceeded") := by
  have h := proxy_rate_limit_distinct (some (.jstr "d")) "key" ⟨429, none⟩ (by decide) rfl
  exact ⟨h.1, h.2.1, h.2.2 ⟨500, none⟩ (by decide) (by decide) (by decide)⟩

/-! ## Claims about the scanner: concrete scenario -/

/-- Claim C3: scanning the import line of scenario 1 yields exactly one hit,
for identifier "777", carrying the health record of 777 (risk tier critical)
whose suggested replacement references identifier "20". -/
theorem scan_erc777_import :
    scanSolidity "import \"...ERC777/ERC777.sol\";"
      = [{ ercNumber := "777", label := "ERC-777", count := 2, lines := [1],
           health := some rec777, isSafe := false }]
    ∧ healthOf "777" = some rec777
    ∧ rec777.riskLevel = .critical
    ∧ rec777.replacement.map Replacement.ercNumber = some "20" := by
  refine ⟨?_, by decide, rfl, rfl⟩
  have h : collectHits "import \"...ERC777/ERC777.sol\";"
      = [{ ercNumber := "777", label := "ERC-777", count := 2, lines := [1],
           health := some rec777, isSafe := false }] := by decide
  show (collectHits "import \"...ERC777/ERC777.sol\";").mergeSort _ = _
  rw [h, List.mergeSort_singleton]

/-! ## Support lemmas on the regex matcher -/

theorem scanCountF_congr (r : Regex) :
    ∀ (f1 : Nat) (l : List Char) (f2 : Nat), l.length < f1 → l.length < f2 →
      scanCountF r f1 l = scanCountF r f2 l := by
  intro f1
  induction f1 with
  | zero => intro l f2 h1 _; omega
  | succ f ih =>
    intro l f2 h1 h2
    match f2, h2 with
    | g + 1, h2 =>
      match l with
      | [] => rfl
      | c :: cs =>
        simp only [List.length_cons] at h1 h2
        simp only [scanCountF]
        cases hm : matchAlts r (c :: cs) with
        | none => exact ih cs g (by omega) (by omega)
        | some n =>
          show 1 + scanCountF r f (cs.drop (n - 1)) = 1 + scanCountF r g (cs.drop (n - 1))
          have hd : (cs.drop (n - 1)).length ≤ cs.length := by
            have := List.length_drop (n - 1) cs
            omega
          rw [ih (cs.drop (n - 1)) g (by omega) (by omega)]

/-- The natural recursion equation of `scanCount` on a nonempty input. -/
theorem scanCount_cons (r : Regex) (c : Char) (cs : List Char) :
    scanCount r (c :: cs) =
      match matchAlts r (c :: cs) with
      | some n => 1 + scanCount r (cs.drop (n - 1))
      | none => scanCount r cs := by
  show scanCountF r (cs.length + 1 + 1) (c :: cs) = _
  simp only [scanCountF]
  cases hm : matchAlts r (c :: cs) with
  | none =>
    exact scanCountF_congr r (cs.length + 1) cs (cs.length + 1) (by omega) (by omega)
  | some n =>
    show 1 + scanCountF r (cs.length + 1) (cs.drop (n - 1)) = 1 + scanCount r (cs.drop (n - 1))
    have hd : (cs.drop (n - 1)).length ≤ cs.length := by
      have := List.length_drop (n - 1) cs
      omega
    rw [scanCountF_congr r (cs.length + 1) (cs.drop (n - 1)) ((cs.drop (n - 1)).length + 1)
      (by omega) (by omega)]
    rfl

theorem matchItems_congr_toLower :
    ∀ (items : List RItem) (xs ys : List Char),
      xs.map Char.toLower = ys.map Char.toLower → matchItems items xs = matchItems items ys := by
  intro items
  induction items with
  | nil => intro xs ys _; rfl
  | cons it its ih =>
    intro xs ys h
    cases it with
    | lit c =>
      cases xs with
      | nil =>
        cases ys with
        | nil => rfl
        | cons y ys => simp at h
      | cons x xs =>
        cases ys with
        | nil => simp at h
        | cons y ys =>
          simp only [List.map_cons, List.cons.injEq] at h
          simp only [matchItems]
          rw [h.1, ih xs ys h.2]
    | opt c =>
      cases xs with
      | nil =>
        cases ys with
        | nil => rfl
        | cons y ys => simp at h
      | cons x xs =>
        cases ys with
        | nil => simp at h
        | cons y ys =>
          simp only [List.map_cons, List.cons.injEq] at h
          have hcons : matchItems its (x :: xs) = matchItems its (y :: ys) :=
            ih (x :: xs) (y :: ys) (by simp [h.1, h.2])
          simp only [matchItems]
          rw [h.1, ih xs ys h.2, hcons]

theorem matchItems_canon_isSome :
    ∀ (items : List RItem) (rest : List Char),
      (matchItems items (canonChars items ++ rest)).isSome := by
  intro items
  induction items with
  | nil => intro rest; rfl
  | cons it its ih =>
    intro rest
    cases it with
    | lit c =>
      show (matchItems (.lit c :: its) (c :: (canonChars its ++ rest))).isSome
      simp only [matchItems, if_pos rfl]
      simpa using ih rest
    | opt c =>
      show (matchItems (.opt c :: its) (c :: (canonChars its ++ rest))).isSome
      simp only [matchItems, if_pos rfl]
      have := ih rest
      cases hmi : matchItems its (canonChars its ++ rest) with
      | none => rw [hmi] at this; simp at this
      | some n => simp

theorem matchItems_isSome_of_lowerEq (items : List RItem) (v rest : List Char)
    (h : v.map Char.toLower = (canonChars items).map Char.toLower) :
    (matchItems items (v ++ rest)).isSome := by
  rw [matchItems_congr_toLower items (v ++ rest) (canonChars items ++ rest)
    (by simp only [List.map_append, h])]
  exact matchItems_canon_isSome items rest

theorem matchAlts_isSome_of_mem :
    ∀ (r : Regex) (alt : List RItem), alt ∈ r → ∀ s : List Char,
      (matchItems alt s).isSome → (matchAlts r s).isSome := by
  intro r
  induction r with
  | nil => intro alt h; simp at h
  | cons a as ih =>
    intro alt halt s hs
    simp only [matchAlts]
    cases hma : matchItems a s with
    | some n => simp
    | none =>
      rcases List.mem_cons.1 halt with rfl | hmem
      · rw [hma] at hs; simp at hs
      · exact ih alt hmem s hs

theorem scanCount_pos (r : Regex) :
    ∀ (pre suf : List Char), (matchAlts r suf).isSome → 0 < scanCount r (pre ++ suf) := by
  intro pre
  induction pre with
  | nil =>
    intro suf h
    cases suf with
    | nil =>
      have e : scanCount r [] = 1 := by
        show (if (matchAlts r []).isSome then 1 else 0) = 1
        rw [if_pos h]
      show 0 < scanCount r []
      rw [e]
      omega
    | cons c cs =>
      rw [List.nil_append, scanCount_cons]
      obtain ⟨n, hn⟩ := Option.isSome_iff_exists.1 h
      rw [hn]
      show 0 < 1 + scanCount r (cs.drop (n - 1))
      omega
  | cons p ps ih =>
    intro suf h
    show 0 < scanCount r (p :: (ps ++ suf))
    rw [scanCount_cons]
    cases hm : matchAlts r (p :: (ps ++ suf)) with
    | some n =>
      show 0 < 1 + scanCount r ((ps ++ suf).drop (n - 1))
      omega
    | none => exact ih suf h

/-! ## Support lemmas on line splitting -/

theorem splitNl_ne_nil : ∀ l : List Char, splitNl l ≠ [] := by
  intro l
  induction l with
  | nil => simp [splitNl]
  | cons c cs ih =>
    simp only [splitNl]
    by_cases hc : c = '\n'
    · rw [if_pos hc]; simp
    · rw [if_neg hc]
      cases hs : splitNl cs with
      | nil => simp
      | cons t rest => simp

theorem splitNl_append_no_nl (v : List Char) (hv : '\n' ∉ v) :
    ∀ ys : List Char, ∃ t rest, splitNl ys = t :: rest ∧ splitNl (v ++ ys) = (v ++ t) :: rest := by
  induction v with
  | nil =>
    intro ys
    cases hs : splitNl ys with
    | nil => exact absurd hs (splitNl_ne_nil ys)
    | cons t rest => exact ⟨t, rest, rfl, by simpa using hs⟩
  | cons c v ih =>
    intro ys
    have hc : c ≠ '\n' := fun h => hv (h ▸ List.mem_cons_self c v)
    have hv' : '\n' ∉ v := fun h => hv (List.mem_cons_of_mem c h)
    obtain ⟨t, rest, h1, h2⟩ := ih hv' ys
    refine ⟨t, rest, h1, ?_⟩
    show splitNl (c :: (v ++ ys)) = _
    simp only [splitNl, if_neg hc, h2, List.cons_append]

theorem exists_line_contains (v : List Char) (hv : '\n' ∉ v) :
    ∀ xs ys : List Char,
      ∃ line ∈ splitNl (xs ++ v ++ ys), ∃ l r, line = l ++ v ++ r := by
  intro xs
  induction xs with
  | nil =>
    intro ys
    obtain ⟨t, rest, _, h2⟩ := splitNl_append_no_nl v hv ys
    rw [List.nil_append]
    exact ⟨v ++ t, by rw [h2]; exact List.mem_cons_self _ _, [], t, by simp⟩
  | cons c xs ih =>
    intro ys
    show ∃ line ∈ splitNl (c :: (xs ++ v ++ ys)), ∃ l r, line = l ++ v ++ r
    obtain ⟨line, hm, l, r, hlr⟩ := ih ys
    by_cases hc : c = '\n'
    · exact ⟨line, by simp only [splitNl, if_pos hc]; exact List.mem_cons_of_mem _ hm, l, r, hlr⟩
    · cases hs : splitNl (xs ++ v ++ ys) with
      | nil => exact absurd hs (splitNl_ne_nil _)
      | cons t rest =>
        rw [hs] at hm
        rcases List.mem_cons.1 hm with rfl | hmem
        · refine ⟨c :: line, ?_, c :: l, r, by simp [hlr]⟩
          simp only [splitNl, if_neg hc, hs]
          exact List.mem_cons_self _ _
        · refine ⟨line, ?_, l, r, hlr⟩
          simp only [splitNl, if_neg hc, hs]
          exact List.mem_cons_of_mem _ hmem

theorem sum_pos_of_mem : ∀ (l : List Nat) (x : Nat), x ∈ l → 0 < x → 0 < l.sum := by
  intro l
  induction l with
  | nil => intro x hx; simp at hx
  | cons a l ih =>
    intro x hx hpos
    rw [List.sum_cons]
    rcases List.mem_cons.1 hx with rfl | hmem
    · omega
    · have := ih x hmem hpos
      omega

theorem totalCount_pos_of_line (r : Regex) (ls : List (List Char)) (line : List Char)
    (hmem : line ∈ ls) (hpos : 0 < scanCount r line) : 0 < totalCount r ls :=
  sum_pos_of_mem _ _ (List.mem_map_of_mem (scanCount r) hmem) hpos

/-! ## Support lemmas on hit collection -/

theorem mem_scanStep (ls : List (List Char)) (acc : List ScanHit) (p : ERCPattern) :
    ∀ h ∈ acc, h ∈ scanStep ls acc p := by
  intro h hm
  unfold scanStep
  split
  · exact List.mem_append_left _ hm
  · exact hm

theorem mem_foldl_scanStep_mono (ls : List (List Char)) :
    ∀ (ps : List ERCPattern) (acc : List ScanHit) (h : ScanHit),
      h ∈ acc → h ∈ List.foldl (scanStep ls) acc ps := by
  intro ps
  induction ps with
  | nil => intro acc h hm; exact hm
  | cons q qs ih =>
    intro acc h hm
    exact ih (scanStep ls acc q) h (mem_scanStep ls acc q h hm)

theorem exists_mem_foldl_scanStep (ls : List (List Char)) :
    ∀ (ps : List ERCPattern) (acc : List ScanHit) (p : ERCPattern),
      p ∈ ps → 0 < totalCount p.pattern ls →
      ∃ h ∈ List.foldl (scanStep ls) acc ps, h.ercNumber = p.ercNumber := by
  intro ps
  induction ps with
  | nil => intro acc p hp; simp at hp
  | cons q qs ih =>
    intro acc p hp htot
    rcases List.mem_cons.1 hp with rfl | hmem
    · show ∃ h ∈ List.foldl (scanStep ls) (scanStep ls acc p) qs, h.ercNumber = p.ercNumber
      by_cases hcond : 0 < totalCount p.pattern ls ∧ ¬ ∃ h ∈ acc, h.ercNumber = p.ercNumber
      · have hstep : mkHit p ls ∈ scanStep ls acc p := by
          unfold scanStep
          rw [if_pos hcond]
          exact List.mem_append_right _ (List.mem_singleton.2 rfl)
        exact ⟨mkHit p ls, mem_foldl_scanStep_mono ls qs _ _ hstep, rfl⟩
      · push_neg at hcond
        obtain ⟨h0, hh0, hnum⟩ := hcond htot
        exact ⟨h0, mem_foldl_scanStep_mono ls qs _ _ (mem_scanStep ls acc p h0 hh0), hnum⟩
    · exact ih (scanStep ls acc q) p hmem htot

theorem mem_foldl_scanStep_elim (ls : List (List Char)) :
    ∀ (ps : List ERCPattern) (acc : List ScanHit) (h : ScanHit),
      h ∈ List.foldl (scanStep ls) acc ps →
      h ∈ acc ∨ ∃ p ∈ ps, h = mkHit p ls ∧ 0 < totalCount p.pattern ls := by
  intro ps
  induction ps with
  | nil => intro acc h hm; exact Or.inl hm
  | cons q qs ih =>
    intro acc h hm
    rcases ih (scanStep ls acc q) h hm with hin | ⟨p, hp, heq, htot⟩
    · unfold scanStep at hin
      by_cases hcond : 0 < totalCount q.pattern ls ∧ ¬ ∃ x ∈ acc, x.ercNumber = q.ercNumber
      · rw [if_pos hcond] at hin
        rcases List.mem_append.1 hin with hin | hin
        · exact Or.inl hin
        · exact Or.inr ⟨q, List.mem_cons_self _ _, List.mem_singleton.1 hin, hcond.1⟩
      · rw [if_neg hcond] at hin
        exact Or.inl hin
    · exact Or.inr ⟨p, List.mem_cons_of_mem q hp, heq, htot⟩

theorem mem_collectHits_elim (code : String) (h : ScanHit) (hm : h ∈ collectHits code) :
    ∃ p ∈ ERC_PATTERNS, h = mkHit p (splitNl code.data)
      ∧ 0 < totalCount p.pattern (splitNl code.data) := by
  rcases mem_foldl_scanStep_elim _ ERC_PATTERNS [] h hm with hin | hex
  · simp at hin
  · exact hex

/-! ## Support lemmas on the match-line list -/

theorem pairwise_fst_lt_enumFrom {α : Type} :
    ∀ (l : List α) (n : Nat), (l.enumFrom n).Pairwise fun a b => a.1 < b.1 := by
  intro l
  induction l with
  | nil => intro n; simp
  | cons a l ih =>
    intro n
    show ((n, a) :: l.enumFrom (n + 1)).Pairwise _
    refine List.Pairwise.cons ?_ (ih (n + 1))
    intro b hb
    have := List.le_fst_of_mem_enumFrom hb
    omega

theorem matchLines_pairwise (r : Regex) (ls : List (List Char)) :
    (matchLines r ls).Pairwise (· < ·) := by
  unfold matchLines
  refine List.Pairwise.filterMap _ ?_ (pairwise_fst_lt_enumFrom (lineCounts r ls) 0)
  intro a a' hlt b hb b' hb'
  by_cases ha : 0 < a.2
  · rw [if_pos ha, Option.mem_def, Option.some.injEq] at hb
    by_cases ha' : 0 < a'.2
    · rw [if_pos ha', Option.mem_def, Option.some.injEq] at hb'
      omega
    · rw [if_neg ha'] at hb'; simp at hb'
  · rw [if_neg ha] at hb; simp at hb

theorem matchLines_mem_bounds (r : Regex) (ls : List (List Char)) :
    ∀ n ∈ matchLines r ls, 1 ≤ n ∧ n ≤ ls.length := by
  intro n hn
  unfold matchLines at hn
  obtain ⟨x, hx, hfx⟩ := List.mem_filterMap.1 hn
  have hb : x.1 < 0 + (lineCounts r ls).length := List.fst_lt_add_of_mem_enumFrom hx
  have hlen : (lineCounts r ls).length = ls.length := List.length_map _ _
  by_cases hx2 : 0 < x.2
  · rw [if_pos hx2, Option.some.injEq] at hfx
    omega
  · rw [if_neg hx2] at hfx
    simp at hfx

/-! ## Support lemmas on the severity comparator -/

theorem hitCmp_le_trans (a b c : ScanHit) (h1 : hitCmp a b ≤ 0) (h2 : hitCmp b c ≤ 0) :
    hitCmp a c ≤ 0 := by
  rcases ha : a.health with _ | ra <;> rcases hb : b.health with _ | rb <;>
    rcases hc : c.health with _ | rc <;>
    simp only [hitCmp, ha, hb, hc] at h1 h2 ⊢ <;> omega

theorem hitLeB_trans (a b c : ScanHit) :
    decide (hitCmp a b ≤ 0) = true → decide (hitCmp b c ≤ 0) = true →
    decide (hitCmp a c ≤ 0) = true := fun h1 h2 =>
  decide_eq_true (hitCmp_le_trans a b c (of_decide_eq_true h1) (of_decide_eq_true h2))

theorem hitLeB_total (a b : ScanHit) :
    (decide (hitCmp a b ≤ 0) || decide (hitCmp b a ≤ 0)) = true := by
  simp only [Bool.or_eq_true, decide_eq_true_eq]
  rcases ha : a.health with _ | ra <;> rcases hb : b.health with _ | rb <;>
    simp only [hitCmp, ha, hb] <;> omega

/-! ## Claims about the scanner: general properties -/

/-- Claim C1: the hit list is ordered with classified hits (ascending
severity) before unclassified ones, and the unclassified hits keep the
order in which their patterns were encountered (the pre-sort order of
`collectHits`). -/
theorem scanSolidity_ordering (code : String) :
    ((scanSolidity code).Pairwise fun a b =>
        (a.health = none → b.health = none)
        ∧ ∀ ra rb, a.health = some ra → b.health = some rb →
            riskOrder ra.riskLevel ≤ riskOrder rb.riskLevel)
    ∧ (scanSolidity code).filter (fun h => h.health.isNone)
        = (collectHits code).filter (fun h => h.health.isNone) := by
  unfold scanSolidity
  constructor
  · have hs := @List.sorted_mergeSort ScanHit (fun a b : ScanHit => decide (hitCmp a b ≤ 0))
      hitLeB_trans hitLeB_total (collectHits code)
    refine hs.imp ?_
    intro a b hab
    have hle : hitCmp a b ≤ 0 := of_decide_eq_true hab
    constructor
    · intro ha
      cases hb : b.health with
      | none => rfl
      | some rb => simp only [hitCmp, ha, hb] at hle; omega
    · intro ra rb hra hrb
      simp only [hitCmp, hra, hrb] at hle
      omega
  · have hAval : ∀ x ∈ (collectHits code).filter (fun h => h.health.isNone),
        x.health = none := by
      intro x hx
      have := List.of_mem_filter hx
      simpa [Option.isNone_iff_eq_none] using this
    have hApw : ((collectHits code).filter (fun h => h.health.isNone)).Pairwise
        (fun a b : ScanHit => decide (hitCmp a b ≤ 0) = true) := by
      apply List.pairwise_of_forall_mem_list
      intro a ha b hb
      simp [hitCmp, hAval a ha, hAval b hb]
    have h1 := List.sublist_mergeSort hitLeB_trans hitLeB_total hApw
      (List.filter_sublist (collectHits code))
    have hself : List.filter (fun h : ScanHit => h.health.isNone)
        (List.filter (fun h : ScanHit => h.health.isNone) (collectHits code))
        = List.filter (fun h : ScanHit => h.health.isNone) (collectHits code) :=
      List.filter_eq_self.mpr fun a ha => (List.mem_filter.1 ha).2
    have h2 : List.Sublist ((collectHits code).filter (fun h => h.health.isNone))
        (((collectHits code).mergeSort
              (fun a b => decide (hitCmp a b ≤ 0))).filter (fun h => h.health.isNone)) := by
      have hf := List.Sublist.filter (fun h : ScanHit => h.health.isNone) h1
      rw [hself] at hf
      exact hf
    have hperm : List.Perm
        (((collectHits code).mergeSort
            (fun a b => decide (hitCmp a b ≤ 0))).filter (fun h => h.health.isNone))
        ((collectHits code).filter (fun h => h.health.isNone)) :=
      (List.mergeSort_perm _ _).filter _
    exact (h2.eq_of_length hperm.length_eq.symm).symm

/-- Claim C7: scanning is case-insensitive: any text containing a case
variant of the canonical text of one of a pattern's alternatives produces a
hit for that pattern's identifier; the ERC-777 pattern covers the variants
ERC777, IERC777, erc-777 and eip-777. -/
theorem scan_case_insensitive :
    (∀ p ∈ ERC_PATTERNS, ∀ alt ∈ p.pattern, ∀ v pre post : String,
        v.data.map Char.toLower = (canonChars alt).map Char.toLower →
        '\n' ∉ v.data →
        ∃ h ∈ scanSolidity (pre ++ v ++ post), h.ercNumber = p.ercNumber)
    ∧ pattern777 ∈ ERC_PATTERNS ∧ pattern777.ercNumber = "777"
    ∧ pattern777.pattern.map canonChars
        = ["ERC777".data, "IERC777".data, "erc-777".data, "eip-777".data] := by
  refine ⟨?_, by decide, rfl, by decide⟩
  intro p hp alt halt v pre post hlow hnl
  have hdata : (pre ++ v ++ post).data = pre.data ++ v.data ++ post.data := by
    rw [String.data_append, String.data_append]
  obtain ⟨line, hline, l, r, hlr⟩ := exists_line_contains v.data hnl pre.data post.data
  have hmi : (matchItems alt (v.data ++ r)).isSome :=
    matchItems_isSome_of_lowerEq alt v.data r hlow
  have hma : (matchAlts p.pattern (v.data ++ r)).isSome :=
    matchAlts_isSome_of_mem p.pattern alt halt _ hmi
  have hsc : 0 < scanCount p.pattern line := by
    rw [hlr, List.append_assoc]
    exact scanCount_pos p.pattern l (v.data ++ r) hma
  have htot : 0 < totalCount p.pattern (splitNl (pre ++ v ++ post).data) := by
    rw [hdata]
    exact totalCount_pos_of_line _ _ line hline hsc
  obtain ⟨h, hh, hnum⟩ :=
    exists_mem_foldl_scanStep (splitNl (pre ++ v ++ post).data) ERC_PATTERNS [] p hp htot
  exact ⟨h, List.mem_mergeSort.2 hh, hnum⟩

theorem scan_case_insensitive_witness :
    ∃ h ∈ scanSolidity ("x\n" ++ "eRc-777" ++ " y"), h.ercNumber = "777" :=
  scan_case_insensitive.1 pattern777 (by decide)
    (lits "erc" ++ [RItem.opt '-'] ++ lits "777") (by decide)
    "eRc-777" "x\n" " y" (by decide) (by decide)

/-- Claim C9: every hit carries its pattern's total match count (at least
one), at most five 1-indexed matching line numbers in first-found
(increasing) order, and the health classification exactly as found in the
static health table. -/
theorem scanHit_fields (code : String) (h : ScanHit) (hm : h ∈ scanSolidity code) :
    1 ≤ h.count
    ∧ h.lines.length ≤ 5
    ∧ h.lines.Pairwise (· < ·)
    ∧ (∀ n ∈ h.lines, 1 ≤ n ∧ n ≤ (splitNl code.data).length)
    ∧ h.health = healthOf h.ercNumber
    ∧ ∃ p ∈ ERC_PATTERNS, h.ercNumber = p.ercNumber
        ∧ h.count = totalCount p.pattern (splitNl code.data)
        ∧ h.lines = (matchLines p.pattern (splitNl code.data)).take 5 := by
  have hmc : h ∈ collectHits code := List.mem_mergeSort.1 hm
  obtain ⟨p, hp, rfl, htot⟩ := mem_collectHits_elim code h hmc
  refine ⟨htot, ?_, ?_, ?_, rfl, p, hp, rfl, rfl, rfl⟩
  · show ((matchLines p.pattern (splitNl code.data)).take 5).length ≤ 5
    rw [List.length_take]
    exact Nat.min_le_left _ _
  · exact List.Pairwise.sublist (List.take_sublist _ _)
      (matchLines_pairwise p.pattern (splitNl code.data))
  · intro n hn
    exact matchLines_mem_bounds p.pattern (splitNl code.data) n (List.mem_of_mem_take hn)

theorem scanHit_fields_witness :
    1 ≤ (ScanHit.mk "777" "ERC-777" 1 [1] (some rec777) false).count
    ∧ (ScanHit.mk "777" "ERC-777" 1 [1] (some rec777) false).lines.length ≤ 5
    ∧ (ScanHit.mk "777" "ERC-777" 1 [1] (some rec777) false).health
        = healthOf (ScanHit.mk "777" "ERC-777" 1 [1] (some rec777) false).ercNumber :=
  have hmem : ScanHit.mk "777" "ERC-777" 1 [1] (some rec777) false ∈ scanSolidity "ERC777" :=
    List.mem_mergeSort.2 (by decide)
  ⟨(scanHit_fields "ERC777" _ hmem).1, (scanHit_fields "ERC777" _ hmem).2.1,
    (scanHit_fields "ERC777" _ hmem).2.2.2.2.1⟩

/-- Claim C10: every hit is classified one way or the other — its health
field is populated or its isSafe flag is set — because every identifier of
the pattern table is in the health table or in the known-safe set. -/
theorem scanHit_classified (code : String) (h : ScanHit) (hm : h ∈ scanSolidity code) :
    (h.health.isSome ∨ h.isSafe = true)
    ∧ ∀ p ∈ ERC_PATTERNS, (healthOf p.ercNumber).isSome ∨ p.ercNumber ∈ SAFE_ERCS := by
  refine ⟨?_, by decide⟩
  obtain ⟨p, hp, rfl, htot⟩ := mem_collectHits_elim code h (List.mem_mergeSort.1 hm)
  have hkey : ∀ q ∈ ERC_PATTERNS, (healthOf q.ercNumber).isSome ∨ q.ercNumber ∈ SAFE_ERCS := by
    decide
  cases hh : healthOf p.ercNumber with
  | some rec =>
    left
    show (healthOf p.ercNumber).isSome
    rw [hh]
    rfl
  | none =>
    right
    show (SAFE_ERCS.contains p.ercNumber && (healthOf p.ercNumber).isNone) = true
    rcases hkey p hp with hk | hk
    · rw [hh] at hk; simp at hk
    · rw [hh]
      simp only [Option.isNone_none, Bool.and_true]
      exact List.elem_eq_true_of_mem hk

theorem scanHit_classified_witness :
    (ScanHit.mk "20" "ERC-20" 1 [1] none true).health.isSome
    ∨ (ScanHit.mk "20" "ERC-20" 1 [1] none true).isSafe = true :=
  have hmem : ScanHit.mk "20" "ERC-20" 1 [1] none true ∈ scanSolidity "IERC20" :=
    List.mem_mergeSort.2 (by decide)
  (scanHit_classified "IERC20" _ hmem).1

end ErcWhat
